import Mathlib

/-!
Shallow embedding of the gacha-machine prize-inventory core
(`src/lib/services/prizeService.ts`, `googleSheetsService.ts`,
`errors/googleSheetsError.ts`, `dataInitializer.ts`, and the low-stock
computation of the display service), together with theorems checking the
natural-language specification against it.

JavaScript `number` values are embedded as `ℚ` (all arithmetic in the
sources is exact on the values of interest); HTTP status codes as `ℤ`;
optional (`?:` / possibly-`undefined`) fields as `Option`.  A function that
can `throw` returns `Except`.  The reactive prizes store (not part of the
provided sources) is modelled from the spec as a plain list: `setPrizes`
replaces the whole collection, `availablePrizes` is the `stock > 0`
subsequence in the same order.
-/

namespace Gacha

/-- A prize record (`Prize` in `types.ts`, inferred from its uses:
`totalStock`, `order`, `createdAt` and `description` may be absent). -/
structure Prize where
  id : String
  name : String
  imageUrl : String
  description : Option String := none
  stock : ℚ
  totalStock : Option ℚ := none
  order : Option ℚ := none
  createdAt : Option ℚ := none
deriving DecidableEq, Repr

/-- `AddPrizeRequest`: input of `PrizeService.addPrize`. -/
structure AddPrizeRequest where
  name : String
  imageUrl : String
  stock : ℚ
  totalStock : Option ℚ := none
  order : Option ℚ := none
  description : Option String := none
deriving DecidableEq, Repr

/-- `UpdatePrizeRequest`: input of `PrizeService.updatePrize` (partial
update: every field except `id` optional). -/
structure UpdatePrizeRequest where
  id : String
  name : Option String := none
  imageUrl : Option String := none
  stock : Option ℚ := none
  totalStock : Option ℚ := none
  order : Option ℚ := none
  description : Option String := none
deriving DecidableEq, Repr

/-- `GoogleSheetsErrorCategory` from `errors/googleSheetsError.ts`. -/
inductive GSCategory where
  | network
  | unauthorized
  | forbidden
  | notFound
  | rateLimit
  | server
  | script
  | unknown
deriving DecidableEq, Repr

/-- The data carried by a `GoogleSheetsError` instance
(`errors/googleSheetsError.ts`): message plus optional status/statusText,
a category (defaulted to `unknown` by the constructor) and details. -/
structure GoogleSheetsErrorData where
  message : String
  status : Option ℤ := none
  statusText : Option String := none
  category : GSCategory := .unknown
  details : Option String := none
deriving DecidableEq, Repr

/-- An error thrown by `GoogleSheetsService`: either a `GoogleSheetsError`
instance (which carries status/category) or a plain `Error` (which carries
only its message). -/
inductive ThrownError where
  | sheets (e : GoogleSheetsErrorData)
  | plain (message : String)
deriving DecidableEq, Repr

/-- Observable: the HTTP status carried by a thrown error, if any.  A plain
`Error` has no status field. -/
def errStatus : ThrownError → Option ℤ
  | .sheets e => e.status
  | .plain _ => none

/-- Observable: the category carried by a thrown error, if any.  A plain
`Error` has no category field. -/
def errCategory : ThrownError → Option GSCategory
  | .sheets e => some e.category
  | .plain _ => none

/-- An error thrown by a `PrizeService` operation: the not-found `Error`
(`'指定された景品が見つかりません'`) or a re-raised backend error. -/
inductive ServiceError where
  | notFound
  | backend (e : ThrownError)
deriving DecidableEq, Repr

/-- The backend action discriminators sent by the remote adapter. -/
inductive BackendAction where
  | add
  | update
  | delete
  | decrement
deriving DecidableEq, Repr

/-- Outcome of one `PrizeService` operation: the value returned (or error
thrown) to the caller, the prizes-store contents afterwards, and the list
of remote-backend calls that were issued during the operation. -/
structure OpResult (α : Type) where
  result : Except ServiceError α
  store : List Prize
  calls : List BackendAction
deriving Repr

/-- `PrizeService.normalizePrize`: fill in `totalStock` from `stock` when
absent, clamp `stock` to `totalStock`, default `createdAt` to `Date.now()`
(the `now` parameter) and `order` to `createdAt`.  (The source's
`typeof orderValue === 'number'` test is always true once `??` has been
applied, since `order` is typed `number | undefined`.) -/
def normalizePrize (now : ℚ) (p : Prize) : Prize :=
  let totalStock := p.totalStock.getD p.stock
  let stock := min p.stock totalStock
  let createdAt := p.createdAt.getD now
  let order := p.order.getD createdAt
  { p with stock := stock, totalStock := some totalStock,
           createdAt := some createdAt, order := some order }

/-- `Math.max(...)` over a non-empty list ( `0` for `[]`, unused). -/
def listMax : List ℚ → ℚ
  | [] => 0
  | [x] => x
  | x :: xs => max x (listMax xs)

/-- `PrizeService.getNextOrder`: `1` on an empty collection, otherwise
`Math.max(...prizes.map(p => p.order ?? 0)) + 1`. -/
def getNextOrder (s : List Prize) : ℚ :=
  if s.isEmpty then 1
  else listMax (s.map fun p => p.order.getD 0) + 1

/-- `Array.prototype.findIndex` by id, returning the index together with
the element found (the source reads `currentPrizes[targetIndex]`). -/
def findWithIndex : List Prize → String → Option (Nat × Prize)
  | [], _ => none
  | p :: ps, i =>
    if p.id = i then some (0, p)
    else (findWithIndex ps i).map fun q => (q.1 + 1, q.2)

/-- `PrizeService.addPrize`.  `enabled` is `config.isGoogleSheetsEnabled`;
`confirm` is the outcome of the `sheetsService.addPrize` call (its resolved
value is discarded by the source, so it is `Unit` here); `newId` stands for
`nanoid()` and `now` for `Date.now()`.  The optimistic store update is
rolled back to the pre-operation snapshot when the confirm step throws. -/
def addPrize (enabled : Bool) (confirm : Except ThrownError Unit)
    (newId : String) (now : ℚ) (req : AddPrizeRequest) (s : List Prize) :
    OpResult Prize :=
  let totalStock := req.totalStock.getD req.stock
  let normalizedStock := min req.stock totalStock
  let order := req.order.getD (getNextOrder s)
  let newPrize := normalizePrize now
    { id := newId, name := req.name, imageUrl := req.imageUrl,
      description := req.description, stock := normalizedStock,
      totalStock := some totalStock, order := some order,
      createdAt := some now }
  let updatedPrizes := s ++ [newPrize]
  if enabled then
    match confirm with
    | .ok _ => ⟨.ok newPrize, updatedPrizes, [.add]⟩
    | .error e => ⟨.error (.backend e), s, [.add]⟩
  else
    ⟨.ok newPrize, updatedPrizes, []⟩

/-- `PrizeService.updatePrize`.  Not-found is thrown before any store
mutation or backend call; otherwise the clamp/defaulting rules run, the
store is optimistically set, and a failing confirm step restores the
pre-operation snapshot and re-raises. -/
def updatePrize (enabled : Bool) (confirm : Except ThrownError Unit)
    (now : ℚ) (req : UpdatePrizeRequest) (s : List Prize) :
    OpResult Unit :=
  match findWithIndex s req.id with
  | none => ⟨.error .notFound, s, []⟩
  | some (targetIndex, target) =>
    let nextTotalStock := req.totalStock.getD (target.totalStock.getD target.stock)
    let requestedStock := req.stock.getD target.stock
    let clampedStock := min requestedStock nextTotalStock
    let nextOrder := req.order.getD (target.order.getD ((targetIndex : ℚ) + 1))
    let updatedPrize := normalizePrize now
      { target with
        name := req.name.getD target.name,
        imageUrl := req.imageUrl.getD target.imageUrl,
        stock := clampedStock,
        totalStock := some nextTotalStock,
        order := some nextOrder,
        description := match req.description with
          | some d => some d
          | none => target.description }
    let updatedPrizes := s.set targetIndex updatedPrize
    if enabled then
      match confirm with
      | .ok _ => ⟨.ok (), updatedPrizes, [.update]⟩
      | .error e => ⟨.error (.backend e), s, [.update]⟩
    else
      ⟨.ok (), updatedPrizes, []⟩

/-- `PrizeService.deletePrize`. -/
def deletePrize (enabled : Bool) (confirm : Except ThrownError Unit)
    (id : String) (s : List Prize) : OpResult Unit :=
  match findWithIndex s id with
  | none => ⟨.error .notFound, s, []⟩
  | some _ =>
    let updatedPrizes := s.filter fun p => ¬ p.id = id
    if enabled then
      match confirm with
      | .ok _ => ⟨.ok (), updatedPrizes, [.delete]⟩
      | .error e => ⟨.error (.backend e), s, [.delete]⟩
    else
      ⟨.ok (), updatedPrizes, []⟩

/-- `PrizeService.decrementStock`.  The new stock is `Math.max(0, stock-1)`.
The source function is declared `Promise<void>` and has no `return`
statement, so its resolved value is `undefined` — modelled as `none` in the
`Option ℚ` return channel (the repository's unit tests, by contrast, expect
it to resolve with the new stock count). -/
def decrementStock (enabled : Bool) (confirm : Except ThrownError Unit)
    (id : String) (s : List Prize) : OpResult (Option ℚ) :=
  match findWithIndex s id with
  | none => ⟨.error .notFound, s, []⟩
  | some (targetIndex, target) =>
    let newStock := max 0 (target.stock - 1)
    let updatedPrize := { target with stock := newStock }
    let updatedPrizes := s.set targetIndex updatedPrize
    if enabled then
      match confirm with
      | .ok _ => ⟨.ok none, updatedPrizes, [.decrement]⟩
      | .error e => ⟨.error (.backend e), s, [.decrement]⟩
    else
      ⟨.ok none, updatedPrizes, []⟩

/-- The `availablePrizes` view of the prizes store.  Modelled from the
spec: the store itself (`stores/prizes.svelte.ts`) is not among the
provided sources; §4.1 specifies `available()` as the subsequence with
`stock > 0`, in the same order. -/
def availablePrizes (s : List Prize) : List Prize :=
  s.filter fun p => 0 < p.stock

/-- `PrizeService.drawPrize`: a pure read.  `r` models the `Math.random()`
value (in `[0,1)`); the chosen index is `Math.floor(r * length)`.  The
function performs no store write, so the store component is returned
unchanged. -/
def drawPrize (s : List Prize) (r : ℚ) : Option Prize × List Prize :=
  let available := availablePrizes s
  if available.length = 0 then (none, s)
  else ((available[(⌊r * available.length⌋).toNat]?), s)

/-- `toGoogleSheetsErrorCategory` (`errors/googleSheetsError.ts`): maps an
optional HTTP status to a category.  `!status` in JavaScript is true for
`undefined` and for `0`, both yielding `unknown`. -/
def toGoogleSheetsErrorCategory : Option ℤ → GSCategory
  | none => .unknown
  | some status =>
    if status = 0 then .unknown
    else if status = 401 then .unauthorized
    else if status = 403 then .forbidden
    else if status = 404 then .notFound
    else if status = 429 then .rateLimit
    else if 500 ≤ status then .server
    else .unknown

/-- The JSON body of a Google Sheets API response
(`GoogleSheetsResponse` in `googleSheetsService.ts`) together with the
transport-level fields `ok` / `status` / `statusText` of the `fetch`
`Response` object. -/
structure GSResponse where
  ok : Bool
  status : ℤ
  statusText : String := ""
  errorField : Option String := none
  success : Option Bool := none
  prize : Option Prize := none
  newStock : Option ℚ := none
  prizes : Option (List Prize) := none
deriving DecidableEq, Repr

/-- Outcome of one `fetch`/`json()` round trip: a response, or a thrown
`TypeError` (network failure), or some other exception. -/
inductive FetchOutcome where
  | response (r : GSResponse)
  | typeError (message : String)
  | otherError (message : String)
deriving DecidableEq, Repr

/-- JavaScript truthiness of an optional string (`if (data.error)`):
`undefined` and the empty string are falsy. -/
def jsTruthyStr : Option String → Bool
  | some s => s ≠ ""
  | none => false

/-- `GoogleSheetsService.getPrizes`.  A non-ok transport status throws a
`GoogleSheetsError` carrying the status and its derived category; a truthy
embedded `error` field throws a `GoogleSheetsError` of category `script`;
a thrown `TypeError` is converted to category `network`, any other
exception to category `unknown`; a `GoogleSheetsError` is re-thrown
as is by the catch block. -/
def gsGetPrizes (o : FetchOutcome) : Except ThrownError (List Prize) :=
  match o with
  | .typeError m =>
    .error (.sheets { message := "ネットワークエラー: " ++ m, category := .network })
  | .otherError m =>
    .error (.sheets { message := m, category := .unknown })
  | .response r =>
    if ¬ r.ok then
      let statusText := if r.statusText = "" then "Unknown error" else r.statusText
      .error (.sheets
        { message := "HTTPエラー (ステータスコード: " ++ toString r.status ++ ")",
          status := some r.status,
          statusText := some statusText,
          category := toGoogleSheetsErrorCategory (some r.status),
          details := some statusText })
    else if jsTruthyStr r.errorField then
      .error (.sheets
        { message := "Apps Scriptエラー: " ++ (r.errorField.getD ""),
          category := .script,
          details := r.errorField })
    else
      .ok (r.prizes.getD [])

/-- The generic message `GoogleSheetsService.addPrize` throws on any
failure. -/
def addFailMsg : String := "スプレッドシートへの景品追加に失敗しました"

/-- The generic message `GoogleSheetsService.updatePrize` throws on any
failure. -/
def updateFailMsg : String := "スプレッドシートの景品更新に失敗しました"

/-- The generic message `GoogleSheetsService.deletePrize` throws on any
failure. -/
def deleteFailMsg : String := "スプレッドシートからの景品削除に失敗しました"

/-- The generic message `GoogleSheetsService.decrementStock` throws on any
failure. -/
def decrementFailMsg : String := "スプレッドシートの在庫減少に失敗しました"

/-- `GoogleSheetsService.addPrize`: every failure path (non-ok status,
embedded `error` field, missing `success`/`prize` payload, or any thrown
exception) is caught and re-thrown as the one generic plain `Error`, which
carries neither the status nor a category. -/
def gsAddPrize (o : FetchOutcome) : Except ThrownError Prize :=
  match o with
  | .response r =>
    if ¬ r.ok then .error (.plain addFailMsg)
    else if jsTruthyStr r.errorField then .error (.plain addFailMsg)
    else
      match r.success, r.prize with
      | some true, some p => .ok p
      | _, _ => .error (.plain addFailMsg)
  | _ => .error (.plain addFailMsg)

/-- `GoogleSheetsService.updatePrize`: same catch-all collapse to a generic
plain `Error`. -/
def gsUpdatePrize (o : FetchOutcome) : Except ThrownError Unit :=
  match o with
  | .response r =>
    if ¬ r.ok then .error (.plain updateFailMsg)
    else if jsTruthyStr r.errorField then .error (.plain updateFailMsg)
    else
      match r.success with
      | some true => .ok ()
      | _ => .error (.plain updateFailMsg)
  | _ => .error (.plain updateFailMsg)

/-- `GoogleSheetsService.deletePrize`: same catch-all collapse to a generic
plain `Error`. -/
def gsDeletePrize (o : FetchOutcome) : Except ThrownError Unit :=
  match o with
  | .response r =>
    if ¬ r.ok then .error (.plain deleteFailMsg)
    else if jsTruthyStr r.errorField then .error (.plain deleteFailMsg)
    else
      match r.success with
      | some true => .ok ()
      | _ => .error (.plain deleteFailMsg)
  | _ => .error (.plain deleteFailMsg)

/-- `GoogleSheetsService.decrementStock`: succeeds only when `success` is
`true` and `newStock` is present; every failure collapses to a generic
plain `Error`. -/
def gsDecrementStock (o : FetchOutcome) : Except ThrownError ℚ :=
  match o with
  | .response r =>
    if ¬ r.ok then .error (.plain decrementFailMsg)
    else if jsTruthyStr r.errorField then .error (.plain decrementFailMsg)
    else
      match r.success, r.newStock with
      | some true, some n => .ok n
      | _, _ => .error (.plain decrementFailMsg)
  | _ => .error (.plain decrementFailMsg)

/-- `PrizeDisplayService.LOW_STOCK_RATIO_THRESHOLD` (10%). -/
def lowStockRatioThreshold : ℚ := 1/10

/-- The low-stock flag computed by
`PrizeDisplayService.getPrizeDisplayInfo`: the denominator is
`totalStock ?? stock`, the ratio is `stock / denominator` guarded by
`denominator > 0` (otherwise `1`), and the flag is
`stock > 0 && ratio <= LOW_STOCK_RATIO_THRESHOLD`. -/
def prizeIsLowStock (p : Prize) : Bool :=
  let denominator := p.totalStock.getD p.stock
  let ratioValue := if 0 < denominator then p.stock / denominator else 1
  decide (0 < p.stock) && decide (ratioValue ≤ lowStockRatioThreshold)

/-- An untyped JavaScript value, for the fields the Data Initializer's
integrity check inspects with `typeof` (loaded data may be arbitrary
JSON). -/
inductive JsVal where
  | str (s : String)
  | num (q : ℚ)
  | boolean (b : Bool)
  | nullv
  | undef
deriving DecidableEq, Repr

/-- `typeof v === 'string'`. -/
def JsVal.isStr : JsVal → Bool
  | .str _ => true
  | _ => false

/-- `typeof v === 'number'`. -/
def JsVal.isNum : JsVal → Bool
  | .num _ => true
  | _ => false

/-- JavaScript truthiness of a loaded field value. -/
def JsVal.truthy : JsVal → Bool
  | .str s => s ≠ ""
  | .num q => q ≠ 0
  | .boolean b => b
  | .nullv => false
  | .undef => false

/-- A loaded prize record as the integrity check sees it: the five checked
fields, untyped. -/
structure RawPrize where
  id : JsVal
  name : JsVal
  imageUrl : JsVal
  stock : JsVal
  createdAt : JsVal
deriving DecidableEq, Repr

/-- The per-record conditions of `DataInitializer.checkDataIntegrity`:
truthy string `id`, truthy string `name`, string `imageUrl`, numeric
non-negative `stock`, numeric `createdAt`. -/
def recordIntegrityOk (p : RawPrize) : Bool :=
  p.id.truthy && p.id.isStr &&
  (p.name.truthy && p.name.isStr) &&
  p.imageUrl.isStr &&
  (match p.stock with
   | .num q => decide (0 ≤ q)
   | _ => false) &&
  (match p.createdAt with
   | .num _ => true
   | _ => false)

/-- `DataInitializer.checkDataIntegrity`: true on the empty collection,
otherwise every record must pass `recordIntegrityOk`.  (The
`Array.isArray` guard is vacuous in the typed embedding.) -/
def checkDataIntegrity (prizes : List RawPrize) : Bool :=
  if prizes.length = 0 then true
  else prizes.all recordIntegrityOk

/-- The state `DataInitializer.initialize` acts on after a successful
`loadPrizes()`: the prizes-store contents (the loaded collection) and the
durable local backend (`localStorage` key `'prizes'`, `none` = absent). -/
structure InitState where
  store : List RawPrize
  localBackend : Option (List RawPrize)
deriving DecidableEq, Repr

/-- The integrity-check step of `DataInitializer.initialize` (lines after
a successful load): when the loaded collection is non-empty and fails
`checkDataIntegrity`, `clearData()` removes the `'prizes'` key from
`localStorage` and sets the store to `[]`; otherwise nothing changes. -/
def initializeAfterLoad (st : InitState) : InitState :=
  if 0 < st.store.length ∧ ¬ checkDataIntegrity st.store then
    { store := [], localBackend := none }
  else st

/-! ### Helper lemmas -/

theorem findWithIndex_eq_none {s : List Prize} {id : String}
    (h : ∀ p ∈ s, p.id ≠ id) : findWithIndex s id = none := by
  induction s with
  | nil => rfl
  | cons p ps ih =>
    have hp : p.id ≠ id := h p (List.mem_cons_self p ps)
    have hps : ∀ q ∈ ps, q.id ≠ id := fun q hq => h q (List.mem_cons_of_mem p hq)
    simp [findWithIndex, hp, ih hps]

theorem listMax_mem : ∀ {l : List ℚ}, l ≠ [] → listMax l ∈ l
  | [], h => absurd rfl h
  | [x], _ => by simp [listMax]
  | x :: y :: t, _ => by
    have ih := listMax_mem (l := y :: t) (by simp)
    rw [show listMax (x :: y :: t) = max x (listMax (y :: t)) from rfl]
    rcases max_choice x (listMax (y :: t)) with hc | hc
    · rw [hc]; exact List.mem_cons_self _ _
    · rw [hc]; exact List.mem_cons_of_mem _ ih

theorem le_listMax : ∀ {l : List ℚ} {x : ℚ}, x ∈ l → x ≤ listMax l
  | [], _, h => absurd h (List.not_mem_nil _)
  | [y], x, h => by
    rcases List.mem_singleton.mp h with rfl
    simp [listMax]
  | y :: z :: t, x, h => by
    rw [show listMax (y :: z :: t) = max y (listMax (z :: t)) from rfl]
    rcases List.mem_cons.mp h with rfl | h2
    · exact le_max_left _ _
    · exact le_trans (le_listMax h2) (le_max_right _ _)

/-! ### Claim theorems -/

/-- C1: for every mutating operation (addPrize, updatePrize, deletePrize,
decrementStock) run with the remote backend enabled, a failing backend
confirm step sets the Store back to the exact pre-operation snapshot and
re-raises the error to the caller; no element of the optimistic change
remains visible. -/
theorem confirmFailureRollsBack (e : ThrownError) :
    (∀ (req : AddPrizeRequest) (newId : String) (now : ℚ) (s : List Prize),
      (addPrize true (.error e) newId now req s).store = s ∧
      (addPrize true (.error e) newId now req s).result = .error (.backend e)) ∧
    (∀ (req : UpdatePrizeRequest) (now : ℚ) (s : List Prize) (i : Nat) (t : Prize),
      findWithIndex s req.id = some (i, t) →
      (updatePrize true (.error e) now req s).store = s ∧
      (updatePrize true (.error e) now req s).result = .error (.backend e)) ∧
    (∀ (id : String) (s : List Prize) (i : Nat) (t : Prize),
      findWithIndex s id = some (i, t) →
      (deletePrize true (.error e) id s).store = s ∧
      (deletePrize true (.error e) id s).result = .error (.backend e)) ∧
    (∀ (id : String) (s : List Prize) (i : Nat) (t : Prize),
      findWithIndex s id = some (i, t) →
      (decrementStock true (.error e) id s).store = s ∧
      (decrementStock true (.error e) id s).result = .error (.backend e)) := by
  refine ⟨?_, ?_, ?_, ?_⟩
  · intro req newId now s
    exact ⟨rfl, rfl⟩
  · intro req now s i t h
    simp [updatePrize, h]
  · intro id s i t h
    simp [deletePrize, h]
  · intro id s i t h
    simp [decrementStock, h]

/-- Fixture: a simple well-formed prize record. -/
def pSample : Prize :=
  { id := "p1", name := "A", imageUrl := "", stock := 5,
    totalStock := some 5, order := some 1, createdAt := some 0 }

/-- Fixture: a backend error. -/
def eSample : ThrownError := .plain "boom"

/-- Witness for C1 at concrete inputs. -/
theorem confirmFailureRollsBack_witness :
    findWithIndex [pSample] "p1" = some (0, pSample) ∧
    (addPrize true (.error eSample) "n" 0
        { name := "B", imageUrl := "", stock := 1 } [pSample]).store = [pSample] ∧
    (updatePrize true (.error eSample) 0 { id := "p1" } [pSample]).store = [pSample] ∧
    (updatePrize true (.error eSample) 0 { id := "p1" } [pSample]).result
      = .error (.backend eSample) ∧
    (deletePrize true (.error eSample) "p1" [pSample]).store = [pSample] ∧
    (decrementStock true (.error eSample) "p1" [pSample]).store = [pSample] := by
  have h : findWithIndex [pSample] "p1" = some (0, pSample) := by
    simp [findWithIndex, pSample]
  have hc := confirmFailureRollsBack eSample
  exact ⟨h, (hc.1 _ "n" 0 [pSample]).1,
    (hc.2.1 { id := "p1" } 0 [pSample] 0 pSample h).1,
    (hc.2.1 { id := "p1" } 0 [pSample] 0 pSample h).2,
    (hc.2.2.1 "p1" [pSample] 0 pSample h).1,
    (hc.2.2.2 "p1" [pSample] 0 pSample h).1⟩

/-- C4: for every id that matches no record, updatePrize, deletePrize and
decrementStock raise the not-found error before performing any mutation:
the Store is unchanged and no backend call is made. -/
theorem notFoundLeavesStoreUntouched (s : List Prize) (b : Bool)
    (conf : Except ThrownError Unit) (now : ℚ) :
    (∀ req : UpdatePrizeRequest, (∀ p ∈ s, p.id ≠ req.id) →
      updatePrize b conf now req s = ⟨.error .notFound, s, []⟩) ∧
    (∀ id : String, (∀ p ∈ s, p.id ≠ id) →
      deletePrize b conf id s = ⟨.error .notFound, s, []⟩) ∧
    (∀ id : String, (∀ p ∈ s, p.id ≠ id) →
      decrementStock b conf id s = ⟨.error .notFound, s, []⟩) := by
  refine ⟨?_, ?_, ?_⟩
  · intro req h
    simp [updatePrize, findWithIndex_eq_none h]
  · intro id h
    simp [deletePrize, findWithIndex_eq_none h]
  · intro id h
    simp [decrementStock, findWithIndex_eq_none h]

/-- Witness for C4 at concrete inputs. -/
theorem notFoundLeavesStoreUntouched_witness :
    (∀ p ∈ [pSample], p.id ≠ "zz") ∧
    updatePrize false (.ok ()) 0 { id := "zz" } [pSample]
      = ⟨.error .notFound, [pSample], []⟩ ∧
    deletePrize false (.ok ()) "zz" [pSample]
      = ⟨.error .notFound, [pSample], []⟩ ∧
    decrementStock false (.ok ()) "zz" [pSample]
      = ⟨.error .notFound, [pSample], []⟩ := by
  have h : ∀ p ∈ [pSample], p.id ≠ "zz" := by
    simp [pSample]
  have hc := notFoundLeavesStoreUntouched [pSample] false (.ok ()) 0
  exact ⟨h, hc.1 { id := "zz" } h, hc.2.1 "zz" h, hc.2.2 "zz" h⟩

/-- Fixture: a prize whose totalStock (7) differs from its stock (5). -/
def pStock5Total7 : Prize :=
  { id := "p1", name := "A", imageUrl := "", stock := 5,
    totalStock := some 7, order := some 1, createdAt := some 0 }

/-- C2 counterexample: (i) `addPrize` with supplied stock `-1` (and no
totalStock) produces a record with `stock = -1`, violating the claimed
`0 ≤ stock`; (ii) `updatePrize` with totalStock absent from the request
keeps the record's prior totalStock (7) instead of setting it equal to the
supplied stock (3). -/
theorem stockInvariantCounterexample :
    ((addPrize false (.ok ()) "n1" 0
        { name := "A", imageUrl := "", stock := -1 } []).store.map
      fun p => p.stock) = [-1] ∧
    ¬ ((0:ℚ) ≤ -1) ∧
    ((updatePrize false (.ok ()) 0 { id := "p1", stock := some 3 }
        [pStock5Total7]).store.map fun p => p.totalStock) = [some 7] ∧
    (7:ℚ) ≠ 3 := by
  refine ⟨?_, by norm_num, ?_, by norm_num⟩
  · simp [addPrize, normalizePrize, getNextOrder]
  · simp [updatePrize, findWithIndex, pStock5Total7, normalizePrize]

/-- C2 amended: under non-negative inputs (negative numbers pass through
unclamped in the source), every record produced by addPrize or updatePrize
satisfies `0 ≤ stock ≤ totalStock`; stock is clamped down to totalStock and
totalStock is never raised; on create an absent totalStock is set equal to
the supplied stock, while on update an absent totalStock retains the prior
value (prior totalStock, falling back to prior stock), not the supplied
stock. -/
theorem stockInvariantAmended :
    (∀ (b : Bool) (conf : Except ThrownError Unit) (newId : String) (now : ℚ)
       (req : AddPrizeRequest) (s : List Prize) (p : Prize),
      0 ≤ req.stock → (∀ t, req.totalStock = some t → 0 ≤ t) →
      (addPrize b conf newId now req s).result = .ok p →
      0 ≤ p.stock ∧
      p.totalStock = some (req.totalStock.getD req.stock) ∧
      p.stock ≤ req.totalStock.getD req.stock ∧
      (req.totalStock.getD req.stock < req.stock →
        p.stock = req.totalStock.getD req.stock) ∧
      (req.stock ≤ req.totalStock.getD req.stock → p.stock = req.stock) ∧
      (req.totalStock = none → p.totalStock = some req.stock)) ∧
    (∀ (b : Bool) (conf : Except ThrownError Unit) (now : ℚ)
       (req : UpdatePrizeRequest) (s : List Prize) (i : Nat) (t : Prize),
      findWithIndex s req.id = some (i, t) →
      0 ≤ t.stock → (∀ x, t.totalStock = some x → 0 ≤ x) →
      (∀ x, req.stock = some x → 0 ≤ x) →
      (∀ x, req.totalStock = some x → 0 ≤ x) →
      (updatePrize b conf now req s).result = .ok () →
      ∃ u, (updatePrize b conf now req s).store = s.set i u ∧
        0 ≤ u.stock ∧
        u.totalStock = some (req.totalStock.getD (t.totalStock.getD t.stock)) ∧
        u.stock ≤ req.totalStock.getD (t.totalStock.getD t.stock) ∧
        (req.totalStock.getD (t.totalStock.getD t.stock) < req.stock.getD t.stock →
          u.stock = req.totalStock.getD (t.totalStock.getD t.stock)) ∧
        (req.stock.getD t.stock ≤ req.totalStock.getD (t.totalStock.getD t.stock) →
          u.stock = req.stock.getD t.stock) ∧
        (req.totalStock = none →
          u.totalStock = some (t.totalStock.getD t.stock))) := by
  constructor
  · intro b conf newId now req s p hstock htotal hok
    have hnt : 0 ≤ req.totalStock.getD req.stock := by
      cases h : req.totalStock with
      | none => simpa [h] using hstock
      | some t => simpa [h] using htotal t h
    have hp : p = normalizePrize now
        { id := newId, name := req.name, imageUrl := req.imageUrl,
          description := req.description,
          stock := min req.stock (req.totalStock.getD req.stock),
          totalStock := some (req.totalStock.getD req.stock),
          order := some (req.order.getD (getNextOrder s)),
          createdAt := some now } := by
      cases b with
      | false =>
        simpa [addPrize] using hok.symm
      | true =>
        cases conf with
        | ok u => simpa [addPrize] using hok.symm
        | error e => simp [addPrize] at hok
    subst hp
    simp only [normalizePrize, Option.getD_some]
    have hmin : min (min req.stock (req.totalStock.getD req.stock))
        (req.totalStock.getD req.stock)
        = min req.stock (req.totalStock.getD req.stock) := by
      rw [min_assoc, min_self]
    refine ⟨?_, by trivial, ?_, ?_, ?_, ?_⟩
    · simpa [hmin] using le_min hstock hnt
    · simp [hmin]
    · intro hlt
      simpa [hmin] using min_eq_right (le_of_lt hlt)
    · intro hle
      simpa [hmin] using min_eq_left hle
    · intro hnone
      simp [hnone]
  · intro b conf now req s i t hfind hstock htotal hreqS hreqT hok
    have hnt : 0 ≤ req.totalStock.getD (t.totalStock.getD t.stock) := by
      cases h : req.totalStock with
      | some x => simpa [h] using hreqT x h
      | none =>
        cases h2 : t.totalStock with
        | some y => simpa [h, h2] using htotal y h2
        | none => simpa [h, h2] using hstock
    have hrs : 0 ≤ req.stock.getD t.stock := by
      cases h : req.stock with
      | some x => simpa [h] using hreqS x h
      | none => simpa [h] using hstock
    refine ⟨normalizePrize now
      { t with
        name := req.name.getD t.name,
        imageUrl := req.imageUrl.getD t.imageUrl,
        stock := min (req.stock.getD t.stock)
          (req.totalStock.getD (t.totalStock.getD t.stock)),
        totalStock := some (req.totalStock.getD (t.totalStock.getD t.stock)),
        order := some (req.order.getD (t.order.getD ((i : ℚ) + 1))),
        description := match req.description with
          | some d => some d
          | none => t.description }, ?_, ?_⟩
    · cases b with
      | false => simp [updatePrize, hfind]
      | true =>
        cases conf with
        | ok u => simp [updatePrize, hfind]
        | error e => simp [updatePrize, hfind] at hok
    · simp only [normalizePrize, Option.getD_some]
      have hmin : min (min (req.stock.getD t.stock)
          (req.totalStock.getD (t.totalStock.getD t.stock)))
          (req.totalStock.getD (t.totalStock.getD t.stock))
          = min (req.stock.getD t.stock)
            (req.totalStock.getD (t.totalStock.getD t.stock)) := by
        rw [min_assoc, min_self]
      refine ⟨?_, by trivial, ?_, ?_, ?_, ?_⟩
      · simpa [hmin] using le_min hrs hnt
      · simp [hmin]
      · intro hlt
        simpa [hmin] using min_eq_right (le_of_lt hlt)
      · intro hle
        simpa [hmin] using min_eq_left hle
      · intro hnone
        simp [hnone]

/-- Fixture: the create request `{stock: 10}` with no totalStock. -/
def req10 : AddPrizeRequest := { name := "A", imageUrl := "", stock := 10 }

/-- Fixture: the record `addPrize` produces from `req10` on an empty
collection (id `"n1"`, now `0`). -/
def pProduced : Prize :=
  { id := "n1", name := "A", imageUrl := "", description := none,
    stock := 10, totalStock := some 10, order := some 1, createdAt := some 0 }

/-- Witness for C2 (amended) at concrete inputs. -/
theorem stockInvariantAmended_witness :
    (0:ℚ) ≤ req10.stock ∧
    (∀ t : ℚ, req10.totalStock = some t → 0 ≤ t) ∧
    (addPrize false (.ok ()) "n1" 0 req10 []).result = .ok pProduced ∧
    0 ≤ pProduced.stock ∧
    pProduced.totalStock = some (req10.totalStock.getD req10.stock) := by
  have hres : (addPrize false (.ok ()) "n1" 0 req10 []).result = .ok pProduced := by
    simp [addPrize, normalizePrize, getNextOrder, req10, pProduced]
  have h := stockInvariantAmended.1 false (.ok ()) "n1" 0 req10 [] pProduced
    (by norm_num [req10]) (by intro t ht; cases ht) hres
  refine ⟨by norm_num [req10], ?_, hres, h.1, h.2.1⟩
  intro t ht
  cases ht


/-- Fixture: a prize with stock 5 (no totalStock recorded). -/
def pStock5 : Prize :=
  { id := "p1", name := "A", imageUrl := "", stock := 5,
    totalStock := some 5, order := some 1, createdAt := some 0 }

/-- Fixture: a prize with stock 1. -/
def pStock1 : Prize :=
  { id := "p1", name := "A", imageUrl := "", stock := 1,
    totalStock := some 1, order := some 1, createdAt := some 0 }

/-- C3: `decrementStock` computes `max(0, stock-1)` and never goes
negative (5 → 4; on stock 1, two sequential calls give 0 then 0), but its
resolved value is `undefined` (`none`), not the new stock count that the
specification — and the repository's own unit tests
(`expect(remaining).toBe(4)`, `expect(first).toBe(0)`) — say is returned
to the caller. -/
theorem decrementStockResolvesUndefined :
    (decrementStock false (.ok ()) "p1" [pStock5]).result = .ok none ∧
    ((decrementStock false (.ok ()) "p1" [pStock5]).store.map
      fun p => p.stock) = [4] ∧
    (decrementStock false (.ok ()) "p1" [pStock1]).result = .ok none ∧
    ((decrementStock false (.ok ()) "p1" [pStock1]).store.map
      fun p => p.stock) = [0] ∧
    (decrementStock false (.ok ()) "p1"
        (decrementStock false (.ok ()) "p1" [pStock1]).store).result = .ok none ∧
    ((decrementStock false (.ok ()) "p1"
        (decrementStock false (.ok ()) "p1" [pStock1]).store).store.map
      fun p => p.stock) = [0] := by
  refine ⟨?_, ?_, ?_, ?_, ?_, ?_⟩ <;>
    · simp [decrementStock, findWithIndex, pStock5, pStock1]
      try norm_num

/-- Fixture: a prize at position 1 (index 0) whose stored order is 5. -/
def pOrder5 : Prize :=
  { id := "p1", name := "A", imageUrl := "", stock := 1,
    totalStock := some 1, order := some 5, createdAt := some 0 }

/-- C5 counterexample: updating `pOrder5` (position 1 in the collection)
with no explicit order keeps its stored order 5; the claim's "prior
position, 1-indexed" would be 1. -/
theorem orderAssignmentCounterexample :
    ((updatePrize false (.ok ()) 0 { id := "p1" } [pOrder5]).store.map
      fun p => p.order) = [some 5] ∧
    some (5:ℚ) ≠ some (1:ℚ) := by
  constructor
  · simp [updatePrize, findWithIndex, pOrder5, normalizePrize]
  · norm_num

/-- C5 amended: with no explicit order, a created prize gets
`max(existing orders, a missing order counting as 0) + 1` (1 on an empty
collection), and an updated prize keeps its prior order value, falling
back to its prior 1-indexed position only when it has no stored order. -/
theorem orderAssignmentAmended :
    (∀ (b : Bool) (conf : Except ThrownError Unit) (newId : String) (now : ℚ)
       (req : AddPrizeRequest) (s : List Prize) (p : Prize),
      req.order = none →
      (addPrize b conf newId now req s).result = .ok p →
      p.order = some (getNextOrder s)) ∧
    getNextOrder [] = 1 ∧
    (∀ s : List Prize, s ≠ [] →
      (getNextOrder s - 1) ∈ (s.map fun q => q.order.getD 0) ∧
      ∀ o ∈ (s.map fun q => q.order.getD 0), o ≤ getNextOrder s - 1) ∧
    (∀ (b : Bool) (conf : Except ThrownError Unit) (now : ℚ)
       (req : UpdatePrizeRequest) (s : List Prize) (i : Nat) (t : Prize),
      findWithIndex s req.id = some (i, t) →
      req.order = none →
      (updatePrize b conf now req s).result = .ok () →
      ∃ u, (updatePrize b conf now req s).store = s.set i u ∧
        u.order = some (t.order.getD ((i : ℚ) + 1))) := by
  refine ⟨?_, ?_, ?_, ?_⟩
  · intro b conf newId now req s p hord hok
    have hp : p = normalizePrize now
        { id := newId, name := req.name, imageUrl := req.imageUrl,
          description := req.description,
          stock := min req.stock (req.totalStock.getD req.stock),
          totalStock := some (req.totalStock.getD req.stock),
          order := some (req.order.getD (getNextOrder s)),
          createdAt := some now } := by
      cases b with
      | false => simpa [addPrize] using hok.symm
      | true =>
        cases conf with
        | ok u => simpa [addPrize] using hok.symm
        | error e => simp [addPrize] at hok
    subst hp
    simp [normalizePrize, hord]
  · rfl
  · intro s hs
    have hmapne : (s.map fun q => q.order.getD 0) ≠ [] := by
      simpa using hs
    have hne : ¬ s.isEmpty := by
      simpa [List.isEmpty_iff] using hs
    constructor
    · simpa [getNextOrder, hne] using listMax_mem hmapne
    · intro o ho
      have := le_listMax ho
      simp only [getNextOrder, hne, if_neg, Bool.false_eq_true, not_false_eq_true,
        if_false]
      linarith
  · intro b conf now req s i t hfind hord hok
    refine ⟨normalizePrize now
      { t with
        name := req.name.getD t.name,
        imageUrl := req.imageUrl.getD t.imageUrl,
        stock := min (req.stock.getD t.stock)
          (req.totalStock.getD (t.totalStock.getD t.stock)),
        totalStock := some (req.totalStock.getD (t.totalStock.getD t.stock)),
        order := some (req.order.getD (t.order.getD ((i : ℚ) + 1))),
        description := match req.description with
          | some d => some d
          | none => t.description }, ?_, ?_⟩
    · cases b with
      | false => simp [updatePrize, hfind]
      | true =>
        cases conf with
        | ok u => simp [updatePrize, hfind]
        | error e => simp [updatePrize, hfind] at hok
    · simp [normalizePrize, hord]

/-- Fixture: the record `addPrize` produces from `req10` on `[pOrder5]`
(next order = 5 + 1 = 6). -/
def pProduced6 : Prize :=
  { id := "n1", name := "A", imageUrl := "", description := none,
    stock := 10, totalStock := some 10, order := some 6, createdAt := some 0 }

/-- Witness for C5 (amended) at concrete inputs. -/
theorem orderAssignmentAmended_witness :
    (req10.order = none) ∧
    (addPrize false (.ok ()) "n1" 0 req10 [pOrder5]).result = .ok pProduced6 ∧
    pProduced6.order = some (getNextOrder [pOrder5]) ∧
    ([pOrder5] ≠ ([] : List Prize)) ∧
    (getNextOrder [pOrder5] - 1)
      ∈ ([pOrder5].map fun q => q.order.getD 0) := by
  have hres : (addPrize false (.ok ()) "n1" 0 req10 [pOrder5]).result
      = .ok pProduced6 := by
    simp [addPrize, normalizePrize, getNextOrder, listMax, req10, pOrder5, pProduced6]
    norm_num
  have hne : [pOrder5] ≠ ([] : List Prize) := by simp
  exact ⟨rfl, hres,
    orderAssignmentAmended.1 false (.ok ()) "n1" 0 req10 [pOrder5] _ rfl hres,
    hne, (orderAssignmentAmended.2.2.1 [pOrder5] hne).1⟩

/-- C6 counterexample: `GoogleSheetsService.addPrize` on a failing
transport status (500) raises the generic plain `Error`, which carries
neither the numeric HTTP status nor any category — and on a successful
transport response with an embedded `error` field it raises the very same
uncategorized error, not a distinct remote-logic failure. -/
theorem writeOpsUncategorizedCounterexample :
    gsAddPrize (.response { ok := false, status := 500 })
      = .error (.plain addFailMsg) ∧
    errStatus (.plain addFailMsg) = none ∧
    errCategory (.plain addFailMsg) = none ∧
    gsAddPrize (.response { ok := true, status := 200, errorField := some "boom" })
      = .error (.plain addFailMsg) := by
  refine ⟨rfl, rfl, rfl, ?_⟩
  simp [gsAddPrize, jsTruthyStr]

/-- C6 amended: only the full-collection fetch (`getPrizes`) raises a
categorized failure carrying the numeric transport status, and a `script`
failure for an embedded `error` field; the add, update, delete and
decrement actions collapse every failure — non-success status or embedded
error alike — into one generic plain error per operation, with no status
and no category. -/
theorem remoteErrorsAmended :
    (∀ r : GSResponse, r.ok = false →
      ∃ d, gsGetPrizes (.response r) = .error (.sheets d) ∧
        d.status = some r.status ∧
        d.category = toGoogleSheetsErrorCategory (some r.status)) ∧
    (∀ r : GSResponse, r.ok = true → jsTruthyStr r.errorField = true →
      ∃ d, gsGetPrizes (.response r) = .error (.sheets d) ∧
        d.category = .script ∧ d.status = none) ∧
    (∀ r : GSResponse, r.ok = false →
      gsAddPrize (.response r) = .error (.plain addFailMsg) ∧
      gsUpdatePrize (.response r) = .error (.plain updateFailMsg) ∧
      gsDeletePrize (.response r) = .error (.plain deleteFailMsg) ∧
      gsDecrementStock (.response r) = .error (.plain decrementFailMsg)) ∧
    (∀ r : GSResponse, r.ok = true → jsTruthyStr r.errorField = true →
      gsAddPrize (.response r) = .error (.plain addFailMsg) ∧
      gsUpdatePrize (.response r) = .error (.plain updateFailMsg) ∧
      gsDeletePrize (.response r) = .error (.plain deleteFailMsg) ∧
      gsDecrementStock (.response r) = .error (.plain decrementFailMsg)) := by
  refine ⟨?_, ?_, ?_, ?_⟩
  · intro r hok
    simp only [gsGetPrizes, hok, Bool.not_eq_true, if_true, if_pos]
    exact ⟨_, rfl, rfl, rfl⟩
  · intro r hok herr
    simp only [gsGetPrizes, hok, herr, Bool.not_eq_true, if_true, if_pos,
      if_neg, Bool.true_eq_false, not_false_eq_true, reduceIte]
    exact ⟨_, rfl, rfl, rfl⟩
  · intro r hok
    refine ⟨?_, ?_, ?_, ?_⟩ <;>
      simp [gsAddPrize, gsUpdatePrize, gsDeletePrize, gsDecrementStock, hok]
  · intro r hok herr
    refine ⟨?_, ?_, ?_, ?_⟩ <;>
      simp [gsAddPrize, gsUpdatePrize, gsDeletePrize, gsDecrementStock, hok, herr]

/-- Witness for C6 (amended) at concrete inputs. -/
theorem remoteErrorsAmended_witness :
    (({ ok := false, status := 503 } : GSResponse).ok = false) ∧
    (∃ d, gsGetPrizes (.response { ok := false, status := 503 })
        = .error (.sheets d) ∧
      d.status = some ({ ok := false, status := 503 } : GSResponse).status ∧
      d.category = toGoogleSheetsErrorCategory
        (some ({ ok := false, status := 503 } : GSResponse).status)) ∧
    (gsAddPrize (.response { ok := false, status := 503 })
      = .error (.plain addFailMsg)) := by
  refine ⟨rfl, remoteErrorsAmended.1 { ok := false, status := 503 } rfl,
    (remoteErrorsAmended.2.2.1 { ok := false, status := 503 } rfl).1⟩

/-- C7: the transport-status-to-category mapping is 401 → unauthorized,
403 → forbidden, 404 → not_found, 429 → rate_limit, ≥ 500 → server; a
transport-level exception (`TypeError`, network failure) maps to network;
any other status maps to unknown. -/
theorem errorCategoryMapping :
    toGoogleSheetsErrorCategory (some 401) = .unauthorized ∧
    toGoogleSheetsErrorCategory (some 403) = .forbidden ∧
    toGoogleSheetsErrorCategory (some 404) = .notFound ∧
    toGoogleSheetsErrorCategory (some 429) = .rateLimit ∧
    (∀ status : ℤ, 500 ≤ status →
      toGoogleSheetsErrorCategory (some status) = .server) ∧
    (∀ m : String, ∃ d, gsGetPrizes (.typeError m) = .error (.sheets d) ∧
      d.category = .network) ∧
    (∀ status : ℤ, status ≠ 401 → status ≠ 403 → status ≠ 404 →
      status ≠ 429 → status < 500 →
      toGoogleSheetsErrorCategory (some status) = .unknown) := by
  refine ⟨rfl, rfl, rfl, rfl, ?_, ?_, ?_⟩
  · intro status h
    simp only [toGoogleSheetsErrorCategory]
    rw [if_neg (by omega), if_neg (by omega), if_neg (by omega),
      if_neg (by omega), if_neg (by omega), if_pos h]
  · intro m
    exact ⟨_, rfl, rfl⟩
  · intro status h1 h2 h3 h4 h5
    simp only [toGoogleSheetsErrorCategory]
    by_cases h0 : status = 0
    · rw [if_pos h0]
    · rw [if_neg h0, if_neg h1, if_neg h2, if_neg h3, if_neg h4,
        if_neg (by omega)]

/-- Witness for C7 at concrete inputs. -/
theorem errorCategoryMapping_witness :
    ((500:ℤ) ≤ 503) ∧
    toGoogleSheetsErrorCategory (some 503) = .server ∧
    (∃ d, gsGetPrizes (.typeError "offline") = .error (.sheets d) ∧
      d.category = .network) ∧
    ((418:ℤ) ≠ 401 ∧ (418:ℤ) ≠ 403 ∧ (418:ℤ) ≠ 404 ∧ (418:ℤ) ≠ 429 ∧
      (418:ℤ) < 500) ∧
    toGoogleSheetsErrorCategory (some 418) = .unknown := by
  refine ⟨by norm_num, errorCategoryMapping.2.2.2.2.1 503 (by norm_num),
    errorCategoryMapping.2.2.2.2.2.1 "offline",
    ⟨by norm_num, by norm_num, by norm_num, by norm_num, by norm_num⟩,
    errorCategoryMapping.2.2.2.2.2.2 418 (by norm_num) (by norm_num)
      (by norm_num) (by norm_num) (by norm_num)⟩


/-- C8: `drawPrize` never mutates the Store; its result is `none` exactly
when no prize has positive stock, and any non-`none` result is a member of
the available (`stock > 0`) subsequence. -/
theorem drawPrizePureAndSound (s : List Prize) (r : ℚ)
    (h0 : 0 ≤ r) (h1 : r < 1) :
    (drawPrize s r).2 = s ∧
    ((drawPrize s r).1 = none ↔ ∀ p ∈ s, ¬ 0 < p.stock) ∧
    (∀ p, (drawPrize s r).1 = some p → p ∈ availablePrizes s) ∧
    (availablePrizes s = [] ↔ ∀ p ∈ s, ¬ 0 < p.stock) := by
  have hiff : availablePrizes s = [] ↔ ∀ p ∈ s, ¬ 0 < p.stock := by
    simp [availablePrizes, List.filter_eq_nil_iff]
  by_cases hA : availablePrizes s = []
  · have hlen : (availablePrizes s).length = 0 := by simp [hA]
    refine ⟨by simp [drawPrize, hlen], ?_, ?_, hiff⟩
    · simp [drawPrize, hlen, hiff.mp hA]
      intro p hp
      exact not_lt.mp (hiff.mp hA p hp)
    · intro p hp
      simp [drawPrize, hlen] at hp
  · have hlen : 0 < (availablePrizes s).length := List.length_pos.mpr hA
    have hnum : (0:ℚ) < ((availablePrizes s).length : ℚ) := by
      exact_mod_cast hlen
    have hfl0 : (0:ℤ) ≤ ⌊r * ((availablePrizes s).length : ℚ)⌋ :=
      Int.floor_nonneg.mpr (mul_nonneg h0 (le_of_lt hnum))
    have hflt : ⌊r * ((availablePrizes s).length : ℚ)⌋
        < ((availablePrizes s).length : ℤ) := by
      refine Int.floor_lt.mpr ?_
      push_cast
      calc r * ((availablePrizes s).length : ℚ)
          < 1 * ((availablePrizes s).length : ℚ) :=
            mul_lt_mul_of_pos_right h1 hnum
        _ = ((availablePrizes s).length : ℚ) := one_mul _
    have hidx : (⌊r * ((availablePrizes s).length : ℚ)⌋).toNat
        < (availablePrizes s).length := (Int.toNat_lt hfl0).mpr hflt
    have hdraw : drawPrize s r
        = (some ((availablePrizes s).get
            ⟨(⌊r * ((availablePrizes s).length : ℚ)⌋).toNat, hidx⟩), s) := by
      simp [drawPrize, Nat.pos_iff_ne_zero.mp hlen,
        List.getElem?_eq_getElem hidx]
    refine ⟨by rw [hdraw], ?_, ?_, hiff⟩
    · rw [hdraw]
      simp only [Prod.fst]
      constructor
      · intro h
        cases h
      · intro hall
        exact absurd (hiff.mpr hall) hA
    · intro p hp
      rw [hdraw] at hp
      simp only [Prod.fst, Option.some.injEq] at hp
      rw [← hp]
      exact List.get_mem _ _ _

/-- Witness for C8 at concrete inputs. -/
theorem drawPrizePureAndSound_witness :
    ((0:ℚ) ≤ 1/2) ∧ ((1:ℚ)/2 < 1) ∧
    (drawPrize [pStock1] (1/2)).2 = [pStock1] ∧
    ((drawPrize [pStock1] (1/2)).1 = none ↔ ∀ p ∈ [pStock1], ¬ 0 < p.stock) := by
  have h := drawPrizePureAndSound [pStock1] (1/2) (by norm_num) (by norm_num)
  exact ⟨by norm_num, by norm_num, h.1, h.2.1⟩

/-- C9: when the Data Initializer loads a non-empty collection containing
any record that fails the integrity check (non-string or empty id,
non-string or empty name, non-string imageUrl, non-numeric or negative
stock, or non-numeric createdAt), it clears both the Store and the durable
local backend, leaving the final Store empty. -/
theorem initializerClearsOnIntegrityFailure (loaded : List RawPrize)
    (backend : Option (List RawPrize)) (hne : loaded ≠ [])
    (hbad : ∃ rp ∈ loaded,
      (rp.id.isStr = false ∨ rp.id = .str "") ∨
      (rp.name.isStr = false ∨ rp.name = .str "") ∨
      rp.imageUrl.isStr = false ∨
      (rp.stock.isNum = false ∨ ∃ q, rp.stock = .num q ∧ q < 0) ∨
      rp.createdAt.isNum = false) :
    initializeAfterLoad ⟨loaded, backend⟩ = ⟨[], none⟩ := by
  obtain ⟨rp, hmem, hb⟩ := hbad
  have hfail : recordIntegrityOk rp = false := by
    rcases hb with (h | h) | (h | h) | h | (h | ⟨q, hq, hneg⟩) | h
    · cases hv : rp.id <;> simp_all [recordIntegrityOk, JsVal.isStr]
    · simp [recordIntegrityOk, h, JsVal.truthy, JsVal.isStr]
    · cases hv : rp.name <;> simp_all [recordIntegrityOk, JsVal.isStr]
    · simp [recordIntegrityOk, h, JsVal.truthy, JsVal.isStr]
    · cases hv : rp.imageUrl <;> simp_all [recordIntegrityOk, JsVal.isStr]
    · cases hv : rp.stock <;> simp_all [recordIntegrityOk, JsVal.isNum]
    · simp [recordIntegrityOk, hq, hneg.not_le]
    · cases hv : rp.createdAt <;> simp_all [recordIntegrityOk, JsVal.isNum]
  have hcheck : checkDataIntegrity loaded = false := by
    have hlen : loaded.length ≠ 0 := by
      simpa [List.length_eq_zero] using hne
    simp only [checkDataIntegrity, if_neg hlen]
    exact List.all_eq_false.mpr ⟨rp, hmem, by simp [hfail]⟩
  have hpos : 0 < loaded.length := List.length_pos.mpr hne
  simp [initializeAfterLoad, hcheck, hpos]

/-- Fixture: a loaded record with `stock: -1` (all other fields valid). -/
def rawBadStock : RawPrize :=
  { id := .str "p1", name := .str "A", imageUrl := .str "",
    stock := .num (-1), createdAt := .num 0 }

/-- Witness for C9 at concrete inputs: a record with `stock: -1`. -/
theorem initializerClearsOnIntegrityFailure_witness :
    ([rawBadStock] ≠ ([] : List RawPrize)) ∧
    (∃ rp ∈ [rawBadStock],
      (rp.id.isStr = false ∨ rp.id = .str "") ∨
      (rp.name.isStr = false ∨ rp.name = .str "") ∨
      rp.imageUrl.isStr = false ∨
      (rp.stock.isNum = false ∨ ∃ q, rp.stock = .num q ∧ q < 0) ∨
      rp.createdAt.isNum = false) ∧
    initializeAfterLoad ⟨[rawBadStock], some [rawBadStock]⟩ = ⟨[], none⟩ := by
  have hbad : ∃ rp ∈ [rawBadStock],
      (rp.id.isStr = false ∨ rp.id = .str "") ∨
      (rp.name.isStr = false ∨ rp.name = .str "") ∨
      rp.imageUrl.isStr = false ∨
      (rp.stock.isNum = false ∨ ∃ q, rp.stock = .num q ∧ q < 0) ∨
      rp.createdAt.isNum = false := by
    refine ⟨rawBadStock, by simp, ?_⟩
    right; right; right; left; right
    exact ⟨-1, rfl, by norm_num⟩
  exact ⟨by simp, hbad,
    initializerClearsOnIntegrityFailure [rawBadStock] (some [rawBadStock])
      (by simp) hbad⟩

/-- The low-stock flag exactly as the claim words it: stock positive and
`stock / denominator ≤ 0.1`, with the ratio treated as `1` (only) when the
denominator is `0`.  Stated from the spec for comparison with the source
definition `prizeIsLowStock`. -/
def claimLowStock (p : Prize) : Prop :=
  0 < p.stock ∧
  (if p.totalStock.getD p.stock = 0 then (1:ℚ)
   else p.stock / p.totalStock.getD p.stock) ≤ lowStockRatioThreshold

/-- Fixture: a prize with positive stock and a negative totalStock. -/
def pNegTotal : Prize :=
  { id := "p1", name := "A", imageUrl := "", stock := 1,
    totalStock := some (-1), createdAt := some 0 }

/-- C10 counterexample: on `stock = 1, totalStock = -1` the claim's
formula (ratio treated as 1 only when the denominator is 0) flags the
prize low-stock (1 / -1 = -1 ≤ 0.1), but the source guards `denominator
> 0`, treats the ratio as 1 and does not flag it. -/
theorem lowStockGuardCounterexample :
    claimLowStock pNegTotal ∧ prizeIsLowStock pNegTotal = false := by
  constructor
  · constructor
    · norm_num [pNegTotal]
    · norm_num [pNegTotal, lowStockRatioThreshold]
  · norm_num [prizeIsLowStock, pNegTotal, lowStockRatioThreshold]

/-- C10 amended: the low-stock flag is true exactly when the stock is
positive, the denominator (`totalStock ?? stock`) is positive, and
`stock / denominator ≤ 0.1`; whenever the denominator is not positive
(zero — so a prize with totalStock 0 is never flagged — or negative) the
ratio is treated as 1 and the flag is false. -/
theorem lowStockAmended (p : Prize) :
    prizeIsLowStock p = true ↔
      (0 < p.stock ∧ 0 < p.totalStock.getD p.stock ∧
        p.stock / p.totalStock.getD p.stock ≤ lowStockRatioThreshold) := by
  by_cases hd : 0 < p.totalStock.getD p.stock
  · simp [prizeIsLowStock, hd]
  · simp [prizeIsLowStock, hd, lowStockRatioThreshold]
    norm_num


end Gacha
